import Mathlib

/-!
Shallow embedding of the ArxivAssistant retrieval core
(repository PETEPEtrek/ArxivAssistant), developed to check the
natural-language specification against the code.

Embedded modules:
- `src/ui/dialogue_manager.py`   (DialogueManager)
- `src/paper_rag/embeddings.py`  (EmbeddingManager)
- `src/paper_rag/query_processor.py` (QueryProcessor)
- `src/paper_rag/async_processor.py` (AsyncPaperProcessor.queue_article)
- `src/paper_rag/section_chunking.py` (SectionBasedChunker)

Python strings are modelled as `String` (Python `len`, slicing and
iteration work on code points, as do Lean's `String.length`,
`String.take`, `String.toList`).  Floating-point scores are modelled
as rationals `ℚ`.  The external ML model (sentence-transformers
`encode` composed with `faiss.normalize_L2`) and the external BM25
scorer (`rank_bm25.BM25Okapi.get_scores`) are parameters of the
embedding: they are pure functions of their text inputs and the code
under verification never inspects their internals.
-/

namespace ArxivAssistant

/-! ### Python string helpers used throughout the source -/

/-- Python `str.join`: `sep.join(parts)`. -/
def pyJoin (sep : String) : List String → String
  | [] => ""
  | [a] => a
  | a :: b :: rest => a ++ sep ++ pyJoin sep (b :: rest)

/-- Python `str.split()` with no argument: split on whitespace runs,
dropping empty pieces. -/
def pySplit (s : String) : List String :=
  (s.split Char.isWhitespace).filter (fun t => t ≠ "")

/-- Python `str.title()` restricted to the ASCII letters that actually
occur in the dialogue roles: a letter is upper-cased when it follows a
non-letter and lower-cased otherwise. -/
def pyTitle (s : String) : String :=
  (s.toList.foldl
    (fun (acc : String × Bool) c =>
      if c.isAlpha then
        (acc.1.push (if acc.2 then c.toLower else c.toUpper), true)
      else
        (acc.1.push c, false))
    ("", false)).1

/-! ### `src/ui/dialogue_manager.py` -/

/-- One message of a dialogue (`DialogueMessage`); the timestamp is
irrelevant to every embedded operation and is not modelled. -/
structure DialogueMessage where
  role : String
  content : String
  deriving Repr, DecidableEq

/-- `DialogueMessage.char_count`, always set to `len(content)` by the
constructor. -/
def DialogueMessage.char_count (m : DialogueMessage) : Nat :=
  m.content.length

/-- State of `DialogueManager`. -/
structure DialogueManager where
  max_chars : Nat
  messages : List DialogueMessage
  summary_block : Option String
  total_chars : Nat
  deriving Repr, DecidableEq

/-- `DialogueManager.__init__` (default `max_chars = 1000`). -/
def DialogueManager.init (max_chars : Nat := 1000) : DialogueManager :=
  { max_chars := max_chars, messages := [], summary_block := none, total_chars := 0 }

/-- The line rendered for one message both by `_create_summary_text`
and by `get_dialogue_context`. -/
def msgLine (m : DialogueMessage) : String :=
  let role_emoji := if m.role = "user" then "🙋" else "🤖"
  role_emoji ++ " **" ++ pyTitle m.role ++ ":** " ++ m.content

/-- The parts list built by `_create_summary_text`: each message's
line, with an empty separator line between consecutive messages. -/
def summaryParts : List DialogueMessage → List String
  | [] => []
  | [m] => [msgLine m]
  | m :: b :: rest => msgLine m :: "" :: summaryParts (b :: rest)

/-- `DialogueManager._create_summary_text`. -/
def create_summary_text (msgs : List DialogueMessage) : String :=
  pyJoin "\n" (summaryParts msgs)

/-- `DialogueManager._summarize_old_messages`. -/
def DialogueManager.summarize_old_messages (d : DialogueManager) : DialogueManager :=
  if d.messages.length < 2 then d
  else
    let half_index := d.messages.length / 2
    let messages_to_summarize := d.messages.take half_index
    let summary_text := create_summary_text messages_to_summarize
    let summary_block :=
      match d.summary_block with
      | some sb => sb ++ "\n\n**ПРЕДЫДУЩИЙ ДИАЛОГ:**\n" ++ summary_text
      | none => "**ПРЕДЫДУЩИЙ ДИАЛОГ:**\n" ++ summary_text
    let rest := d.messages.drop half_index
    { d with
        messages := rest
        summary_block := some summary_block
        total_chars := (rest.map DialogueMessage.char_count).sum }

/-- The first half of `DialogueManager.add_message`: append the new
message and bump `total_chars`, before the compaction check. -/
def DialogueManager.rawAdd (d : DialogueManager) (role content : String) : DialogueManager :=
  let m : DialogueMessage := { role := role, content := content }
  { d with
      messages := d.messages ++ [m]
      total_chars := d.total_chars + m.char_count }

/-- `DialogueManager.add_message`. -/
def DialogueManager.add_message (d : DialogueManager) (role content : String) : DialogueManager :=
  let d' := d.rawAdd role content
  if d'.max_chars < d'.total_chars then d'.summarize_old_messages else d'

/-- `DialogueManager.clear_dialogue`. -/
def DialogueManager.clear_dialogue (d : DialogueManager) : DialogueManager :=
  { d with messages := [], summary_block := none, total_chars := 0 }

/-- The list of lines contributed by the live messages in
`get_dialogue_context` (the `**ТЕКУЩИЙ ДИАЛОГ:**` header followed by
one line per message; empty when there are no live messages). -/
def DialogueManager.liveSection (d : DialogueManager) : List String :=
  if d.messages.isEmpty then []
  else "**ТЕКУЩИЙ ДИАЛОГ:**" :: d.messages.map msgLine

/-- `DialogueManager.get_dialogue_context`. -/
def DialogueManager.get_dialogue_context (d : DialogueManager) : String :=
  let summaryPart :=
    match d.summary_block with
    | some sb => [sb, ""]
    | none => []
  pyJoin "\n" (summaryPart ++ d.liveSection)

/-- Modelled from the spec: the compaction step exactly as claim C6
states it, with no minimum-message-count guard — remove the oldest
`⌊n/2⌋` live messages, render them, and append the rendered fragment
to the existing `summary_block` (concatenating, never replacing).
The rendering and separator strings are those of
`_summarize_old_messages`, which the claim does not constrain. -/
def claimedCompact (d : DialogueManager) : DialogueManager :=
  let half_index := d.messages.length / 2
  let messages_to_summarize := d.messages.take half_index
  let summary_text := create_summary_text messages_to_summarize
  let summary_block :=
    match d.summary_block with
    | some sb => sb ++ "\n\n**ПРЕДЫДУЩИЙ ДИАЛОГ:**\n" ++ summary_text
    | none => "**ПРЕДЫДУЩИЙ ДИАЛОГ:**\n" ++ summary_text
  let rest := d.messages.drop half_index
  { d with
      messages := rest
      summary_block := some summary_block
      total_chars := (rest.map DialogueMessage.char_count).sum }

/-- The externally reachable operations on a dialogue, for stating the
`total_chars` invariant over arbitrary operation sequences. -/
inductive DialogueOp where
  | add (role content : String)
  | compact
  | clear
  deriving Repr, DecidableEq

/-- Apply one dialogue operation. -/
def applyDialogueOp (d : DialogueManager) : DialogueOp → DialogueManager
  | .add role content => d.add_message role content
  | .compact => d.summarize_old_messages
  | .clear => d.clear_dialogue

/-! ### `src/paper_rag/embeddings.py` -/

/-- An embedding vector (one row of a numpy float matrix, with
rationals in place of floats). -/
abbrev Vec := List ℚ

/-- Inner product of two vectors (`query_embedding @ candidate_embedding.T`
and the score computed by `faiss.IndexFlatIP`). -/
def dot : Vec → Vec → ℚ
  | [], _ => 0
  | _ :: _, [] => 0
  | a :: as, b :: bs => a * b + dot as bs

/-- The external models used by the store, as pure functions:
`encode` is `SentenceTransformer.encode` on a single text followed by
`faiss.normalize_L2` (the code always uses the two together before any
vector is stored or compared), and `bm25_scores` is
`BM25Okapi(corpus).get_scores(query_tokens)`. -/
structure Model where
  encode : String → Vec
  bm25_scores : List (List String) → List String → List ℚ

/-- The values of a chunk's `metadata` dict that the retrieval code
reads (`metadata.get('arxiv_id')`, `metadata.get('section')`,
`metadata.get('chunk_index')`, `metadata.get('extraction_method')`);
`none` models an absent key. -/
structure Meta where
  arxiv_id : Option String := none
  sectionName : Option String := none
  chunk_index : Option Nat := none
  extraction_method : Option String := none
  deriving Repr, DecidableEq

/-- A chunk dict as passed to `EmbeddingManager.add_to_index`; a
`none` field models a missing dict key (reading it raises `KeyError`). -/
structure Chunk where
  text : Option String
  metadata : Option Meta
  chunk_id : Option String
  deriving Repr, DecidableEq

/-- The value stored under `'chunk_id'`: `chunk.get('chunk_id', i)`
puts either the chunk's own string id or the loop position `i`. -/
inductive ChunkId where
  | str (s : String)
  | num (n : Nat)
  deriving Repr, DecidableEq

/-- One row of `self.chunks_metadata`. -/
structure StoredChunk where
  id : Nat
  text : String
  metadata : Meta
  chunk_id : ChunkId
  deriving Repr, DecidableEq

/-- In-memory state of `EmbeddingManager`: `index_dim = none` models
`self.index is None`; `index_vecs` are the vectors held by the FAISS
index (`ntotal = index_vecs.length`); `bm25` holds the tokenized
corpus captured by `BM25Okapi` (`none` models `self.bm25_index is
None`).  On-disk persistence (`_save_index`) has no effect on this
state and is not modelled. -/
structure EmbeddingManager where
  index_dim : Option Nat
  index_vecs : List Vec
  bm25 : Option (List (List String))
  chunks_metadata : List StoredChunk
  deriving Repr, DecidableEq

/-- A freshly constructed manager with no persisted index on disk. -/
def EmbeddingManager.empty : EmbeddingManager :=
  { index_dim := none, index_vecs := [], bm25 := none, chunks_metadata := [] }

/-- `texts = [chunk['text'] for chunk in chunks]`: `none` when some
chunk misses the `'text'` key (the raised `KeyError` is caught inside
`create_embeddings`). -/
def allTexts : List Chunk → Option (List String)
  | [] => some []
  | c :: rest =>
    match c.text, allTexts rest with
    | some t, some ts => some (t :: ts)
    | _, _ => none

/-- `EmbeddingManager.create_embeddings`: `None` for an empty chunk
list or when collecting the texts raises; otherwise the encoded rows. -/
def create_embeddings (model : Model) (chunks : List Chunk) : Option (List Vec) :=
  if chunks = [] then none
  else
    match allTexts chunks with
    | none => none
    | some texts => some (texts.map model.encode)

/-- `embeddings.shape[1]`: the common row length of the encoded batch. -/
def dimOf (embeddings : List Vec) : Nat :=
  (embeddings.headD []).length

/-- Tokenization used for the BM25 corpus and queries:
`text.lower().split()`. -/
def tokenize (text : String) : List String :=
  pySplit text.toLower

/-- The metadata-append loop of `add_to_index` starting at list
position `i`: returns the rows appended before the loop finished or
raised, and whether it finished.  Reading a missing `'text'` or
`'metadata'` key raises `KeyError`, which aborts the loop after the
earlier rows were already appended. -/
def buildMetadata (start_id : Nat) : List Chunk → Nat → List StoredChunk × Bool
  | [], _ => ([], true)
  | c :: rest, i =>
    match c.text, c.metadata with
    | some t, some m =>
      let row : StoredChunk :=
        { id := start_id + i, text := t, metadata := m
          chunk_id := match c.chunk_id with
            | some s => ChunkId.str s
            | none => ChunkId.num i }
      let (rows, ok) := buildMetadata start_id rest (i + 1)
      (row :: rows, ok)
    | _, _ => ([], false)

/-- `EmbeddingManager._create_bm25_index`: rebuilds the BM25 corpus
from all accumulated chunks; a no-op when there are none.  Its
internal `try/except` never lets an exception escape. -/
def create_bm25_index (s : EmbeddingManager) : EmbeddingManager :=
  if s.chunks_metadata = [] then s
  else { s with bm25 := some (s.chunks_metadata.map (fun c => tokenize c.text)) }

/-- `EmbeddingManager.add_to_index`.  Mirrors the source order of
effects inside the `try` block: the FAISS index is (possibly) created,
all vectors are added to it, and only then are the metadata rows
appended one by one; an exception caught by the `except` arm reports
`False` but keeps every mutation already performed.
`faiss.IndexFlatIP.add` itself raises, before storing anything, when a
row's length differs from the index dimension. -/
def add_to_index (model : Model) (s : EmbeddingManager) (chunks : List Chunk) :
    Bool × EmbeddingManager :=
  match create_embeddings model chunks with
  | none => (false, s)
  | some embeddings =>
    let s₁ :=
      match s.index_dim with
      | some _ => s
      | none => { s with index_dim := some (dimOf embeddings) }
    let d := s₁.index_dim.getD 0
    if embeddings.any (fun v => v.length ≠ d) then
      (false, s₁)
    else
      let start_id := s₁.chunks_metadata.length
      let s₂ := { s₁ with index_vecs := s₁.index_vecs ++ embeddings }
      let (rows, ok) := buildMetadata start_id chunks 0
      let s₃ := { s₂ with chunks_metadata := s₂.chunks_metadata ++ rows }
      if ok then (true, create_bm25_index s₃) else (false, s₃)

/-- A result dict as produced by `search` / `bm25_search` and enriched
by the query processor.  The write-only `debug_bm25_candidates`
diagnostic entry is not modelled: nothing in the code ever reads it. -/
structure SearchResult where
  text : String
  metadata : Meta
  score : ℚ
  rank : Nat
  chunk_id : ChunkId
  search_type : Option String := none
  bm25_score : Option ℚ := none
  semantic_score : Option ℚ := none
  deriving Repr, DecidableEq

/-- Stable insertion (from the right) for sorting scored indices in
descending score order; equal scores keep their original (ascending
index) order, matching Python's stable `sort(reverse=True)` and the
order FAISS reports exact top-`k` results in. -/
def insertDesc (p : Nat × ℚ) : List (Nat × ℚ) → List (Nat × ℚ)
  | [] => [p]
  | q :: rest => if q.2 ≤ p.2 then p :: q :: rest else q :: insertDesc p rest

/-- Sort scored indices by descending score (stable). -/
def sortDesc (l : List (Nat × ℚ)) : List (Nat × ℚ) :=
  l.foldr insertDesc []

/-- Attach list positions `0, 1, 2, …` (Python `enumerate`). -/
def enum {α : Type} (l : List α) : List (Nat × α) :=
  (List.range l.length).zip l

/-- Build the result dict of `EmbeddingManager.search` for one hit. -/
def mkSearchResult (s : EmbeddingManager) (rank : Nat) (idx : Nat) (score : ℚ) :
    Option SearchResult :=
  match s.chunks_metadata.get? idx with
  | none => none
  | some cm =>
    some { text := cm.text, metadata := cm.metadata, score := score
           rank := rank, chunk_id := cm.chunk_id }

/-- `EmbeddingManager.search`: dense top-`k` search.  Empty when the
index is missing or empty; otherwise the stored vectors are ranked by
inner product with the encoded query and the best `k` are returned
with ranks `1, 2, …`. -/
def search (model : Model) (s : EmbeddingManager) (query : String) (k : Nat) :
    List SearchResult :=
  match s.index_dim with
  | none => []
  | some _ =>
    if s.index_vecs.length = 0 then []
    else
      let q := model.encode query
      let scored := (enum s.index_vecs).map (fun p => (p.1, dot q p.2))
      let top := (sortDesc scored).take k
      (enum top).filterMap (fun p => mkSearchResult s (p.1 + 1) p.2.1 p.2.2)

/-- `EmbeddingManager.bm25_search`: lexical top-`k` search over the
BM25 corpus; empty when the BM25 index or the metadata table is
missing. -/
def bm25_search (model : Model) (s : EmbeddingManager) (query : String) (k : Nat) :
    List SearchResult :=
  match s.bm25 with
  | none => []
  | some corpus =>
    if s.chunks_metadata = [] then []
    else
      let query_tokens := tokenize query
      let scores := model.bm25_scores corpus query_tokens
      let results_with_scores := enum scores
      let top_results := (sortDesc results_with_scores).take k
      (enum (top_results.filter (fun p => p.1 < s.chunks_metadata.length))).filterMap
        (fun p =>
          (mkSearchResult s (p.1 + 1) p.2.1 p.2.2).map
            (fun r => { r with search_type := some "bm25" }))

/-! ### `src/paper_rag/query_processor.py` -/

/-- Python truthiness of the optional `arxiv_id` argument
(`if arxiv_id:`): `None` and the empty string are falsy. -/
def truthy : Option String → Bool
  | none => false
  | some s => s != ""

/-- A Python `\w` character, over the character ranges the queries use:
ASCII alphanumerics, the underscore, and non-ASCII letters (the
Russian query vocabulary); `re` classifies all of these as word
characters. -/
def isWordChar (c : Char) : Bool :=
  c.isAlphanum || c = '_' || 127 < c.toNat

/-- `re.sub(r'[^\w\s]', ' ', s)`. -/
def stripPunct (s : String) : String :=
  String.mk (s.toList.map (fun c => if isWordChar c || c.isWhitespace then c else ' '))

/-- `re.sub(r'\s+', ' ', s)`: collapse every whitespace run to a
single space. -/
def collapseWs (s : String) : String :=
  (s.toList.foldl
    (fun (acc : String × Bool) c =>
      if c.isWhitespace then
        if acc.2 then acc else (acc.1.push ' ', true)
      else (acc.1.push c, false))
    ("", false)).1

/-- `QueryProcessor.query_expansions` as a lookup function. -/
def query_expansions (w : String) : List String :=
  if w = "что" then ["содержание", "суть", "описание"]
  else if w = "как" then ["метод", "способ", "подход"]
  else if w = "почему" then ["причина", "обоснование"]
  else if w = "результат" then ["вывод", "заключение", "итог"]
  else if w = "метод" then ["методология", "подход", "алгоритм"]
  else if w = "эксперимент" then ["исследование", "тест", "анализ"]
  else []

/-- `QueryProcessor.stop_words`. -/
def stop_words : List String :=
  ["что", "как", "где", "когда", "почему", "какой", "какая", "какое",
   "в", "на", "с", "по", "для", "из", "к", "от", "при", "о", "об",
   "и", "или", "но", "а", "да", "нет", "не", "ни", "же", "ли",
   "это", "то", "та", "те", "тот", "эта", "эти"]

/-- `QueryProcessor.enhance_query`. -/
def enhance_query (query : String) : String :=
  let enhanced := query.toLower.trim
  let enhanced := stripPunct enhanced
  let enhanced := collapseWs enhanced
  let words := pySplit enhanced
  let expanded_words := words.flatMap (fun w => w :: query_expansions w)
  let filtered_words :=
    expanded_words.filter (fun w => !stop_words.contains w || decide (3 < w.length))
  pyJoin " " filtered_words

/-- `QueryProcessor.BM25_WEIGHT` (the fixed 30% lexical weight). -/
def BM25_WEIGHT : ℚ := 3 / 10

/-- `QueryProcessor.SEMANTIC_WEIGHT` (the fixed 70% semantic weight). -/
def SEMANTIC_WEIGHT : ℚ := 7 / 10

/-- Cosine similarity computed inside `_rerank_with_embeddings`: the
query and the candidate text are encoded (and normalized) afresh and
their inner product is taken. -/
def simScore (model : Model) (query : String) (c : SearchResult) : ℚ :=
  dot (model.encode query) (model.encode c.text)

/-- The fused score `combined = 0.3 * bm25_score + 0.7 * similarity`
(`candidate.get('score', 0)` always finds the `'score'` key on a
search result). -/
def combinedScore (model : Model) (query : String) (c : SearchResult) : ℚ :=
  BM25_WEIGHT * c.score + SEMANTIC_WEIGHT * simScore model query c

/-- The copied-and-updated dict `best_candidate` built when a
candidate takes the lead in `_rerank_with_embeddings`. -/
def rescore (model : Model) (query : String) (c : SearchResult) : SearchResult :=
  { c with
      score := combinedScore model query c
      bm25_score := some c.score
      semantic_score := some (simScore model query c)
      search_type := some "hybrid" }

/-- The candidate loop of `_rerank_with_embeddings`, carrying
`best_candidate` and `best_score` (initially `None` and `-1`). -/
def rerankLoop (model : Model) (query : String) :
    List SearchResult → Option SearchResult → ℚ → Option SearchResult
  | [], best, _ => best
  | c :: rest, best, best_score =>
    if best_score < combinedScore model query c then
      rerankLoop model query rest (some (rescore model query c)) (combinedScore model query c)
    else
      rerankLoop model query rest best best_score

/-- `QueryProcessor._rerank_with_embeddings`.  The `except` arm of the
source (returning `candidates[0]`) only fires on encoding failures,
which the pure model cannot produce. -/
def rerank_with_embeddings (model : Model) (query : String)
    (candidates : List SearchResult) : Option SearchResult :=
  if candidates = [] then none
  else rerankLoop model query candidates none (-1)

/-- `QueryProcessor._fallback_embedding_search`: dense search with
`k = 10` under a document filter and `k = 5` otherwise; when the
filter matches nothing the best unfiltered result is returned. -/
def fallback_embedding_search (model : Model) (s : EmbeddingManager)
    (query : String) (arxiv_id : Option String) : Option SearchResult :=
  let k := if truthy arxiv_id then 10 else 5
  let results := search model s query k
  match results with
  | [] => none
  | best :: _ =>
    if truthy arxiv_id then
      match results.filter (fun r => r.metadata.arxiv_id == arxiv_id) with
      | f :: _ => some f
      | [] => some best
    else some best

/-- `QueryProcessor._search_relevant_chunk`.  The `.error` outcome
models the uncaught `TypeError` raised by
`best_candidate['debug_bm25_candidates'] = …` when the re-ranking
returned `None`; every other path returns normally. -/
def search_relevant_chunk (model : Model) (s : EmbeddingManager)
    (query : String) (arxiv_id : Option String) :
    Except String (Option SearchResult) :=
  let bm25_candidates := bm25_search model s query 10
  match bm25_candidates with
  | [] => .ok (fallback_embedding_search model s query arxiv_id)
  | _ :: _ =>
    let filteredCandidates :=
      if truthy arxiv_id then
        match bm25_candidates.filter (fun r => r.metadata.arxiv_id == arxiv_id) with
        | [] => none
        | f :: rest => some (f :: rest)
      else some bm25_candidates
    match filteredCandidates with
    | none => .ok (fallback_embedding_search model s query arxiv_id)
    | some candidates =>
      match rerank_with_embeddings model query candidates with
      | some best => .ok (some best)
      | none => .error "TypeError: NoneType does not support item assignment"

/-- The four broad queries used by `_get_all_article_chunks`. -/
def broad_queries : List String :=
  ["abstract introduction method result conclusion",
   "research study analysis data experiment",
   "paper article work approach model",
   "figure table equation reference"]

/-- The inner accumulation loop of `_get_all_article_chunks`: keep a
result when its `arxiv_id` equals the requested one and its
`chunk_index` is present and unseen. -/
def gatherChunks (arxiv_id : Option String) :
    List SearchResult → List SearchResult × List Nat → List SearchResult × List Nat
  | [], acc => acc
  | r :: rest, (chunks, seen) =>
    match r.metadata.chunk_index with
    | some ci =>
      if (r.metadata.arxiv_id == arxiv_id) && !seen.contains ci then
        gatherChunks arxiv_id rest (chunks ++ [r], seen ++ [ci])
      else
        gatherChunks arxiv_id rest (chunks, seen)
    | none => gatherChunks arxiv_id rest (chunks, seen)

/-- Stable insertion (from the right) for Python's stable ascending
`list.sort(key=…)`. -/
def insertAscBy (key : SearchResult → Nat) (x : SearchResult) :
    List SearchResult → List SearchResult
  | [] => [x]
  | y :: rest => if key x ≤ key y then x :: y :: rest else y :: insertAscBy key x rest

/-- Stable ascending sort by a `Nat` key. -/
def sortAscBy (key : SearchResult → Nat) (l : List SearchResult) : List SearchResult :=
  l.foldr (insertAscBy key) []

/-- `QueryProcessor._get_all_article_chunks`. -/
def get_all_article_chunks (model : Model) (s : EmbeddingManager)
    (arxiv_id : Option String) : List SearchResult :=
  let acc := broad_queries.foldl
    (fun acc q => gatherChunks arxiv_id (search model s q 50) acc) ([], [])
  sortAscBy (fun r => r.metadata.chunk_index.getD 0) acc.1

/-- `QueryProcessor._get_section_chunks`. -/
def get_section_chunks (model : Model) (s : EmbeddingManager)
    (top_chunk : SearchResult) (arxiv_id : Option String) : List SearchResult :=
  match top_chunk.metadata.sectionName with
  | none => [top_chunk]
  | some sn =>
    if sn = "" ∨ sn = "Unknown" then [top_chunk]
    else
      match get_all_article_chunks model s arxiv_id with
      | [] => [top_chunk]
      | a :: rest =>
        sortAscBy (fun r => r.metadata.chunk_index.getD 0)
          ((a :: rest).filter (fun c => c.metadata.sectionName == some sn))

/-- The context dict built by `QueryProcessor._extract_context`. -/
structure ContextInfo where
  sectionName : String
  arxiv_id : Option String
  chunk_index : Option Nat
  source_method : String
  preview : String
  deriving Repr, DecidableEq

/-- `QueryProcessor._extract_context`. -/
def extract_context (chunk : SearchResult) : ContextInfo :=
  { sectionName := chunk.metadata.sectionName.getD "Неизвестно"
    arxiv_id := chunk.metadata.arxiv_id
    chunk_index := chunk.metadata.chunk_index
    source_method := chunk.metadata.extraction_method.getD "unknown"
    preview :=
      if 200 < chunk.text.length then chunk.text.take 200 ++ "..." else chunk.text }

/-- The result dict of `QueryProcessor.process_query`. -/
structure QueryResult where
  success : Bool
  message : Option String := none
  query : String
  processed_query : String
  chunk : Option SearchResult := none
  section_chunks : List SearchResult := []
  context : Option ContextInfo := none
  deriving Repr, DecidableEq

/-- `QueryProcessor.process_query`.  `.error` propagates the one
uncaught exception of the search path; `.ok` carries the structured
result dict. -/
def process_query (model : Model) (s : EmbeddingManager)
    (query : String) (arxiv_id : Option String) : Except String QueryResult :=
  let processed_query := enhance_query query
  match search_relevant_chunk model s processed_query arxiv_id with
  | .error e => .error e
  | .ok none =>
    .ok { success := false
          message := some "Не найдено релевантной информации"
          query := query, processed_query := processed_query }
  | .ok (some top_chunk) =>
    .ok { success := true
          query := query, processed_query := processed_query
          chunk := some top_chunk
          section_chunks := get_section_chunks model s top_chunk arxiv_id
          context := some (extract_context top_chunk) }

/-! ### `src/paper_rag/async_processor.py` (enqueue path) -/

/-- A value of the `processing_status` dict, as written by
`queue_article` (lines 297–303) and later mutated by
`_process_task` / `_update_progress` / `_complete_task` /
`_error_task`.  None of those writers ever stores a `'task_id'` key,
which the model reflects by this record having no such field.
Timestamps (`time.time()`) are modelled as natural numbers. -/
structure TaskStatus where
  status : String
  arxiv_id : String
  stage : String
  progress : Nat
  queued_time : Option Nat := none
  deriving Repr, DecidableEq

/-- A task dict placed on `processing_queue`. -/
structure QueueTask where
  task_id : String
  arxiv_id : String
  pdf_url : String
  queued_time : Nat
  deriving Repr, DecidableEq

/-- A value of the `active_tasks` dict. -/
structure ActiveTask where
  arxiv_id : String
  status : String
  pdf_url : String
  queued_time : Nat
  deriving Repr, DecidableEq

/-- The scheduler state touched by `queue_article`.  Python dicts
preserve insertion order, so both dicts are association lists. -/
structure AsyncPaperProcessor where
  processing_queue : List QueueTask
  processing_status : List (String × TaskStatus)
  active_tasks : List (String × ActiveTask)
  deriving Repr, DecidableEq

/-- A freshly started processor: empty queue and no tracked tasks. -/
def AsyncPaperProcessor.init : AsyncPaperProcessor :=
  { processing_queue := [], processing_status := [], active_tasks := [] }

/-- `AsyncPaperProcessor.queue_article`, with `now` standing for
`int(time.time())`.  Returns the task id handed back to the caller
and the new state.  When a task for the same `arxiv_id` is already
`queued` or `processing`, the source returns
`status.get('task_id', task_id)`; since no status dict ever holds a
`'task_id'` key, that expression evaluates to the freshly generated
`task_id`. -/
def queue_article (s : AsyncPaperProcessor) (arxiv_id pdf_url : String) (now : Nat) :
    String × AsyncPaperProcessor :=
  let task_id := arxiv_id ++ "_" ++ toString now
  match s.processing_status.find?
      (fun kv => kv.2.arxiv_id == arxiv_id &&
        (kv.2.status == "queued" || kv.2.status == "processing")) with
  | some _ => (task_id, s)
  | none =>
    let task : QueueTask :=
      { task_id := task_id, arxiv_id := arxiv_id, pdf_url := pdf_url, queued_time := now }
    let st : TaskStatus :=
      { status := "queued", arxiv_id := arxiv_id, stage := "queued"
        progress := 0, queued_time := some now }
    let at_ : ActiveTask :=
      { arxiv_id := arxiv_id, status := "queued", pdf_url := pdf_url, queued_time := now }
    (task_id,
     { s with
        processing_queue := s.processing_queue ++ [task]
        processing_status := s.processing_status ++ [(task_id, st)]
        active_tasks := s.active_tasks ++ [(task_id, at_)] })

/-! ### `src/paper_rag/section_chunking.py` -/

/-- A section dict produced by `SectionBasedChunker.extract_sections`. -/
structure DocSection where
  title : String
  content : String
  start_pos : Nat
  end_pos : Nat
  level : Nat
  deriving Repr, DecidableEq

/-- A header dict as produced by `_find_all_headers` (the fields the
downstream code reads). -/
structure Header where
  title : String
  start_pos : Nat
  end_pos : Nat
  level : Nat
  deriving Repr, DecidableEq

/-- A chunk dict produced by `SectionBasedChunker._create_chunk`
(its `metadata` sub-dict flattened into the record; `page_info` is
always passed through unused by `_create_chunk` and not modelled). -/
structure SBChunk where
  text : String
  sectionName : String
  chunk_index : Nat
  arxiv_id : String
  chunk_type : String
  section_start_pos : Nat
  chunk_id : String
  deriving Repr, DecidableEq

/-- `SectionBasedChunker._create_chunk`. -/
def create_chunk (text section_title : String) (chunk_index : Nat)
    (arxiv_id : String) (section_start_pos : Nat) : SBChunk :=
  { text := text
    sectionName := section_title
    chunk_index := chunk_index
    arxiv_id := arxiv_id
    chunk_type := "section_based"
    section_start_pos := section_start_pos
    chunk_id := arxiv_id ++ "_" ++ toString chunk_index }

/-- The `for i, sub_text in enumerate(sub_texts)` loop of
`_split_large_section`: whitespace-only pieces are skipped but still
advance the enumeration counter `i`. -/
def subChunksLoop (section_title arxiv_id : String)
    (start_chunk_index section_start_pos : Nat) :
    List String → Nat → List SBChunk
  | [], _ => []
  | t :: rest, i =>
    if t.trim != "" then
      create_chunk t section_title (start_chunk_index + i) arxiv_id section_start_pos
        :: subChunksLoop section_title arxiv_id start_chunk_index section_start_pos rest (i + 1)
    else
      subChunksLoop section_title arxiv_id start_chunk_index section_start_pos rest (i + 1)

/-- `SectionBasedChunker._split_large_section`.  `self.text_splitter`
is always constructed in `__init__`, so the splitter-less fallback
branch of the source is dead code; `splitText` is the external
`RecursiveCharacterTextSplitter.split_text`. -/
def split_large_section (splitText : String → List String)
    (section_content section_title : String) (start_chunk_index : Nat)
    (arxiv_id : String) (section_start_pos : Nat) : List SBChunk :=
  subChunksLoop section_title arxiv_id start_chunk_index section_start_pos
    (splitText section_content) 0

/-- The section loop of `SectionBasedChunker.chunk_sections`, carrying
the document-global `chunk_index` counter. -/
def chunkSectionsLoop (max_section_size : Nat) (splitText : String → List String)
    (arxiv_id : String) : List DocSection → Nat → List SBChunk
  | [], _ => []
  | sec :: rest, chunk_index =>
    if sec.content.length ≤ max_section_size then
      create_chunk sec.content sec.title chunk_index arxiv_id sec.start_pos
        :: chunkSectionsLoop max_section_size splitText arxiv_id rest (chunk_index + 1)
    else
      let sub_chunks :=
        split_large_section splitText sec.content sec.title chunk_index arxiv_id sec.start_pos
      sub_chunks ++
        chunkSectionsLoop max_section_size splitText arxiv_id rest
          (chunk_index + sub_chunks.length)

/-- `SectionBasedChunker.chunk_sections` (default
`max_section_size = 1000`). -/
def chunk_sections (max_section_size : Nat) (splitText : String → List String)
    (sections : List DocSection) (arxiv_id : String) : List SBChunk :=
  chunkSectionsLoop max_section_size splitText arxiv_id sections 0

/-- `SectionBasedChunker.extract_sections` on the `pdf_path=None`
path: the headers come from `_find_all_headers` (a cascade of Python
`re` pattern searches, embedded as the parameter `find_all_headers`),
and the non-degenerate branch delegates to
`_create_sections_from_headers` (parameter
`create_sections_from_headers`).  The degenerate branch — the subject
of the claim about header-less documents — is embedded directly from
the source. -/
def extract_sections
    (create_sections_from_headers : String → List Header → List DocSection)
    (find_all_headers : String → List Header) (text : String) : List DocSection :=
  match find_all_headers text with
  | [] =>
    [{ title := "Full Article", content := text
       start_pos := 0, end_pos := text.length, level := 0 }]
  | h :: rest => create_sections_from_headers text (h :: rest)

/-! ### Concrete instantiations used by counterexamples and witnesses -/

/-- A concrete external model: every text is encoded as the
one-dimensional unit vector `[1]`, and the BM25 scorer returns no
scores. -/
def mConst : Model :=
  { encode := fun _ => [1], bm25_scores := fun _ _ => [] }

/-- A stored chunk of document `"Y"` used by the filtered-search
counterexample. -/
def yStored (i : Nat) : StoredChunk :=
  { id := i, text := "y"
    metadata := { arxiv_id := some "Y", chunk_index := some i }
    chunk_id := ChunkId.num i }

/-- An index holding eleven chunks of document `"Y"` (dense scores
`100, 99, …, 90`) and one chunk of document `"X"` (dense score `1`),
with no BM25 index (a state `_load_existing_index` produces when the
BM25 file is absent). -/
def c3Store : EmbeddingManager :=
  { index_dim := some 1
    index_vecs := (List.range 11).map (fun i => [(100 - i : ℚ)]) ++ [[(1 : ℚ)]]
    bm25 := none
    chunks_metadata :=
      (List.range 11).map yStored ++
        [{ id := 11, text := "x"
           metadata := { arxiv_id := some "X", chunk_index := some 11 }
           chunk_id := ChunkId.num 11 }] }

/-- An index holding a single chunk of document `"X"`. -/
def c3aStore : EmbeddingManager :=
  { index_dim := some 1
    index_vecs := [[(1 : ℚ)]]
    bm25 := none
    chunks_metadata :=
      [{ id := 0, text := "x"
         metadata := { arxiv_id := some "X", chunk_index := some 0 }
         chunk_id := ChunkId.num 0 }] }

/-- A concrete text splitter that keeps a non-blank text whole and
drops a blank one, satisfying the langchain splitter's guarantee of
never emitting whitespace-only pieces. -/
def splitKeep (s : String) : List String :=
  if s.trim = "" then [] else [s]

/-! ## Theorems -/

/-- C10: calling the Index Store's add operation with an empty chunk
list returns `False` — `create_embeddings` treats the empty list as a
failure — and leaves the whole manager state (vector index, metadata
table, BM25 index) unchanged. -/
theorem add_to_index_empty_chunks (model : Model) (s : EmbeddingManager) :
    add_to_index model s [] = (false, s) := by
  simp [add_to_index, create_embeddings]

/-- C8: when the Structure Extractor finds no valid header, the whole
document becomes a single section titled `Full Article`, spanning
offsets `0` to `len(text)`, at level `0`, with the entire text as its
content. -/
theorem extract_sections_no_headers
    (create_sections_from_headers : String → List Header → List DocSection)
    (find_all_headers : String → List Header) (text : String)
    (h : find_all_headers text = []) :
    extract_sections create_sections_from_headers find_all_headers text
      = [{ title := "Full Article", content := text
           start_pos := 0, end_pos := text.length, level := 0 }] := by
  unfold extract_sections
  rw [h]

/-- Witness for C8 at a concrete header-less input. -/
theorem extract_sections_no_headers_witness :
    (fun _ : String => ([] : List Header)) "no headers here" = [] ∧
      extract_sections (fun _ _ => []) (fun _ => []) "no headers here"
        = [{ title := "Full Article", content := "no headers here"
             start_pos := 0, end_pos := 15, level := 0 }] :=
  ⟨rfl, extract_sections_no_headers (fun _ _ => []) (fun _ => []) "no headers here" rfl⟩

/-- C9: a query against an empty index (no metadata rows, no stored
vectors) always produces the structured no-results outcome — success
`False` with the fixed message — and never an exception (`.ok`, never
`.error`). -/
theorem process_query_empty_index (model : Model) (s : EmbeddingManager)
    (query : String) (arxiv_id : Option String)
    (hmeta : s.chunks_metadata = []) (hvecs : s.index_vecs = []) :
    process_query model s query arxiv_id
      = .ok { success := false
              message := some "Не найдено релевантной информации"
              query := query, processed_query := enhance_query query } := by
  have hbm : bm25_search model s (enhance_query query) 10 = [] := by
    unfold bm25_search
    cases hb : s.bm25 with
    | none => rfl
    | some corpus => simp [hmeta]
  have hsearch : ∀ k, search model s (enhance_query query) k = [] := by
    intro k
    unfold search
    cases hd : s.index_dim with
    | none => rfl
    | some d => simp [hvecs]
  have hfb : fallback_embedding_search model s (enhance_query query) arxiv_id = none := by
    unfold fallback_embedding_search
    simp [hsearch]
  simp [process_query, search_relevant_chunk, hbm, hfb]

/-- Witness for C9 on the freshly constructed empty store. -/
theorem process_query_empty_index_witness :
    process_query mConst EmbeddingManager.empty "q" none
      = .ok { success := false
              message := some "Не найдено релевантной информации"
              query := "q", processed_query := enhance_query "q" } :=
  process_query_empty_index mConst EmbeddingManager.empty "q" none rfl rfl

/-- The `total_chars` bookkeeping invariant of a dialogue state. -/
def DialogueInv (d : DialogueManager) : Prop :=
  d.total_chars = (d.messages.map DialogueMessage.char_count).sum

theorem inv_summarize {d : DialogueManager} (h : DialogueInv d) :
    DialogueInv d.summarize_old_messages := by
  unfold DialogueManager.summarize_old_messages
  split
  · exact h
  · simp [DialogueInv]

theorem inv_add (d : DialogueManager) (h : DialogueInv d) (role content : String) :
    DialogueInv (d.add_message role content) := by
  have hraw : DialogueInv (d.rawAdd role content) := by
    unfold DialogueInv at h ⊢
    simp [DialogueManager.rawAdd, DialogueMessage.char_count, h]
  unfold DialogueManager.add_message
  by_cases hc :
      (d.rawAdd role content).max_chars < (d.rawAdd role content).total_chars
  · simp only [hc, if_true]
    exact inv_summarize hraw
  · simp only [hc, if_false]
    exact hraw

theorem inv_applyOp (d : DialogueManager) (h : DialogueInv d) (op : DialogueOp) :
    DialogueInv (applyDialogueOp d op) := by
  cases op with
  | add role content => exact inv_add d h role content
  | compact => exact inv_summarize h
  | clear => simp [applyDialogueOp, DialogueInv, DialogueManager.clear_dialogue]

theorem inv_foldl (ops : List DialogueOp) :
    ∀ d : DialogueManager, DialogueInv d → DialogueInv (ops.foldl applyDialogueOp d) := by
  induction ops with
  | nil => exact fun d h => h
  | cons op rest ih => exact fun d h => ih _ (inv_applyOp d h op)

/-- C7: after any sequence of `add_message`, compaction and
`clear_dialogue` operations starting from a fresh dialogue, the
incrementally tracked `total_chars` equals the sum of the lengths of
the live messages. -/
theorem dialogue_total_chars_invariant (ops : List DialogueOp) (max_chars : Nat) :
    (ops.foldl applyDialogueOp (DialogueManager.init max_chars)).total_chars
      = ((ops.foldl applyDialogueOp (DialogueManager.init max_chars)).messages.map
          DialogueMessage.char_count).sum :=
  inv_foldl ops (DialogueManager.init max_chars) rfl

/-- C6 counterexample: a single message longer than `max_chars`
triggers the compaction check (`total_chars` exceeds `max_chars` after
the add), yet `_summarize_old_messages` returns without touching
`summary_block` because fewer than two live messages exist, whereas
the claimed compaction would append a (header-only) transcript
fragment of the oldest `⌊1/2⌋ = 0` messages and the two states
differ. -/
theorem dialogue_compaction_counterexample :
    (DialogueManager.init 2).max_chars
        < ((DialogueManager.init 2).rawAdd "user" "abc").total_chars
      ∧ (DialogueManager.init 2).add_message "user" "abc"
        ≠ claimedCompact ((DialogueManager.init 2).rawAdd "user" "abc") := by
  decide

theorem summarize_eq_claimedCompact (d : DialogueManager)
    (h : 2 ≤ d.messages.length) :
    d.summarize_old_messages = claimedCompact d := by
  unfold DialogueManager.summarize_old_messages claimedCompact
  rw [if_neg (by omega)]

/-- C6 amended: after an add that pushes `total_chars` over
`max_chars`, compaction behaves exactly as claimed — the oldest
`⌊n/2⌋` live messages are removed, rendered, and appended to the
existing `summary_block` — provided at least two live messages are
present (with fewer than two, compaction is a no-op); and whenever a
`summary_block` is present, `get_dialogue_context` returns it first,
followed by the live-message transcript. -/
theorem dialogue_compaction_amended :
    (∀ (d : DialogueManager) (role content : String),
        d.max_chars < (d.rawAdd role content).total_chars →
        2 ≤ (d.rawAdd role content).messages.length →
        d.add_message role content = claimedCompact (d.rawAdd role content))
      ∧ (∀ (d : DialogueManager) (sb : String), d.summary_block = some sb →
          d.get_dialogue_context = sb ++ "\n" ++ pyJoin "\n" ("" :: d.liveSection)) := by
  constructor
  · intro d role content hover hlen
    show (if (d.rawAdd role content).max_chars < (d.rawAdd role content).total_chars
          then (d.rawAdd role content).summarize_old_messages
          else d.rawAdd role content)
        = claimedCompact (d.rawAdd role content)
    have hover' : (d.rawAdd role content).max_chars
        < (d.rawAdd role content).total_chars := hover
    rw [if_pos hover']
    exact summarize_eq_claimedCompact _ hlen
  · intro d sb h
    unfold DialogueManager.get_dialogue_context
    rw [h]
    rfl

/-- Witness for the amended C6, exercising both conjuncts at concrete
states. -/
theorem dialogue_compaction_amended_witness :
    ({ max_chars := 2, messages := [{ role := "user", content := "ab" }]
       summary_block := none, total_chars := 2 } : DialogueManager).add_message
        "assistant" "cd"
      = claimedCompact
          (({ max_chars := 2, messages := [{ role := "user", content := "ab" }]
              summary_block := none, total_chars := 2 } : DialogueManager).rawAdd
            "assistant" "cd")
    ∧ ({ max_chars := 2, messages := [], summary_block := some "S"
         total_chars := 0 } : DialogueManager).get_dialogue_context
      = "S" ++ "\n" ++ pyJoin "\n"
          ("" :: ({ max_chars := 2, messages := [], summary_block := some "S"
                    total_chars := 0 } : DialogueManager).liveSection) :=
  ⟨dialogue_compaction_amended.1 _ "assistant" "cd" (by decide) (by decide),
   dialogue_compaction_amended.2 _ "S" rfl⟩

/-- C4, evaluated at the failing input: a task for `"2301.00001"` is
enqueued at time `100` (its tracked `task_id` is `"2301.00001_100"`,
the only key of `processing_status`, with status `queued`); a second
`queue_article` for the same article at time `200` creates no new task
(the state is untouched) but returns the fresh id `"2301.00001_200"`
instead of the existing task's id — `status.get('task_id', task_id)`
falls back to the default because the status dicts never store a
`'task_id'` key. -/
theorem queue_article_duplicate_eval :
    ((queue_article AsyncPaperProcessor.init "2301.00001" "u" 100).2.processing_status.map
        Prod.fst = ["2301.00001_100"])
      ∧ ((queue_article AsyncPaperProcessor.init "2301.00001" "u"
            100).2.processing_status.map (fun kv => kv.2.status) = ["queued"])
      ∧ (queue_article
            (queue_article AsyncPaperProcessor.init "2301.00001" "u" 100).2
            "2301.00001" "u" 200).1 = "2301.00001_200"
      ∧ (queue_article
            (queue_article AsyncPaperProcessor.init "2301.00001" "u" 100).2
            "2301.00001" "u" 200).2
        = (queue_article AsyncPaperProcessor.init "2301.00001" "u" 100).2 := by
  refine ⟨rfl, rfl, rfl, rfl⟩

theorem subChunksLoop_indexes (title aid : String) (start ssp : Nat) :
    ∀ (l : List String) (i : Nat), (∀ t ∈ l, t.trim ≠ "") →
      (subChunksLoop title aid start ssp l i).map SBChunk.chunk_index
        = List.range' (start + i) l.length := by
  intro l
  induction l with
  | nil => intro i _; rfl
  | cons t rest ih =>
    intro i h
    have ht : (t.trim != "") = true :=
      bne_iff_ne.mpr (h t (List.mem_cons_self t rest))
    have hrest : ∀ u ∈ rest, u.trim ≠ "" :=
      fun u hu => h u (List.mem_cons_of_mem t hu)
    simp only [subChunksLoop, ht, if_true, List.map_cons, List.length_cons,
      ih (i + 1) hrest, List.range'_succ]
    rfl

theorem chunkSectionsLoop_indexes (msz : Nat) (split : String → List String)
    (aid : String) (hsplit : ∀ t, ∀ u ∈ split t, u.trim ≠ "") :
    ∀ (secs : List DocSection) (ci : Nat),
      (chunkSectionsLoop msz split aid secs ci).map SBChunk.chunk_index
        = List.range' ci (chunkSectionsLoop msz split aid secs ci).length := by
  intro secs
  induction secs with
  | nil => intro ci; rfl
  | cons sec rest ih =>
    intro ci
    by_cases hc : sec.content.length ≤ msz
    · simp only [chunkSectionsLoop, if_pos hc, List.map_cons, List.length_cons,
        ih (ci + 1), List.range'_succ]
      rfl
    · have hmap := subChunksLoop_indexes sec.title aid ci sec.start_pos
        (split sec.content) 0 (hsplit sec.content)
      have hlen : (subChunksLoop sec.title aid ci sec.start_pos
          (split sec.content) 0).length = (split sec.content).length := by
        have h' := congrArg List.length hmap
        simpa using h'
      simp only [chunkSectionsLoop, if_neg hc, split_large_section,
        List.map_append, List.length_append, hmap, hlen, ih, Nat.add_zero]
      rw [Nat.add_comm (split sec.content).length _]
      exact List.range'_append_1 ci (split sec.content).length _

/-- C5: the chunk indexes produced by `chunk_sections` form the single
document-global sequence `0, 1, 2, …` across all sections in document
order — never restarted per section and never repeated — provided the
text splitter never emits a whitespace-only piece (which the
`RecursiveCharacterTextSplitter` used by the source guarantees: it
strips each piece and drops empty ones). -/
theorem chunk_sections_global_counter (msz : Nat) (split : String → List String)
    (sections : List DocSection) (aid : String)
    (hsplit : ∀ t, ∀ u ∈ split t, u.trim ≠ "") :
    (chunk_sections msz split sections aid).map SBChunk.chunk_index
      = List.range (chunk_sections msz split sections aid).length := by
  rw [List.range_eq_range']
  exact chunkSectionsLoop_indexes msz split aid hsplit sections 0

/-- Witness for C5 on a two-section document (one section small enough
to stay whole, one split by the splitter). -/
theorem chunk_sections_global_counter_witness :
    (chunk_sections 3 splitKeep
        [{ title := "A", content := "ab", start_pos := 0, end_pos := 2, level := 0 },
         { title := "B", content := "abcdef", start_pos := 2, end_pos := 8, level := 0 }]
        "X").map SBChunk.chunk_index
      = List.range
          (chunk_sections 3 splitKeep
            [{ title := "A", content := "ab", start_pos := 0, end_pos := 2, level := 0 },
             { title := "B", content := "abcdef", start_pos := 2, end_pos := 8, level := 0 }]
            "X").length :=
  chunk_sections_global_counter 3 splitKeep _ "X"
    (fun t u hu => by
      unfold splitKeep at hu
      by_cases h : t.trim = ""
      · rw [if_pos h] at hu
        cases hu
      · rw [if_neg h] at hu
        rw [List.mem_singleton] at hu
        rw [hu]
        exact h)

theorem rerankLoop_spec (model : Model) (query : String) :
    ∀ (cs : List SearchResult) (best : Option SearchResult) (bs : ℚ),
      (rerankLoop model query cs best bs = best
          ∧ ∀ c ∈ cs, combinedScore model query c ≤ bs)
        ∨ (∃ c ∈ cs,
            rerankLoop model query cs best bs = some (rescore model query c)
              ∧ bs < combinedScore model query c
              ∧ ∀ c' ∈ cs, combinedScore model query c' ≤ combinedScore model query c) := by
  intro cs
  induction cs with
  | nil =>
    intro best bs
    left
    exact ⟨rfl, by simp⟩
  | cons c rest ih =>
    intro best bs
    by_cases h : bs < combinedScore model query c
    · have hstep : rerankLoop model query (c :: rest) best bs
          = rerankLoop model query rest (some (rescore model query c))
              (combinedScore model query c) := by
        simp only [rerankLoop, if_pos h]
      rcases ih (some (rescore model query c)) (combinedScore model query c) with
        ⟨heq, hall⟩ | ⟨c'', hmem, heq, hgt, hall⟩
      · right
        refine ⟨c, List.mem_cons_self c rest, by rw [hstep, heq], h, ?_⟩
        intro c' hc'
        rcases List.mem_cons.mp hc' with rfl | hc'
        · exact le_refl _
        · exact hall c' hc'
      · right
        refine ⟨c'', List.mem_cons_of_mem c hmem, by rw [hstep, heq],
          lt_trans h hgt, ?_⟩
        intro c' hc'
        rcases List.mem_cons.mp hc' with rfl | hc'
        · exact le_of_lt hgt
        · exact hall c' hc'
    · have hstep : rerankLoop model query (c :: rest) best bs
          = rerankLoop model query rest best bs := by
        simp only [rerankLoop, if_neg h]
      rcases ih best bs with ⟨heq, hall⟩ | ⟨c'', hmem, heq, hgt, hall⟩
      · left
        refine ⟨by rw [hstep, heq], ?_⟩
        intro c' hc'
        rcases List.mem_cons.mp hc' with rfl | hc'
        · exact le_of_not_lt h
        · exact hall c' hc'
      · right
        refine ⟨c'', List.mem_cons_of_mem c hmem, by rw [hstep, heq], hgt, ?_⟩
        intro c' hc'
        rcases List.mem_cons.mp hc' with rfl | hc'
        · exact le_trans (le_of_not_lt h) (le_of_lt hgt)
        · exact hall c' hc'

/-- C2: on a non-empty candidate list the hybrid re-ranker returns one
of the candidates, re-scored with the fused score
`0.3 * bm25_score + 0.7 * cosine_similarity`, and that fused score is
maximal among all candidates.  The hypotheses record the ranges of the
externally produced inputs: BM25 candidate scores are non-negative and
the cosine similarity of two normalized embeddings is at least `-1`
(they keep every fused score above the loop's `-1` sentinel). -/
theorem rerank_selects_max (model : Model) (query : String)
    (candidates : List SearchResult)
    (hne : candidates ≠ [])
    (hlex : ∀ c ∈ candidates, 0 ≤ c.score)
    (hsim : ∀ c ∈ candidates, -1 ≤ simScore model query c) :
    ∃ c ∈ candidates,
      rerank_with_embeddings model query candidates = some (rescore model query c)
        ∧ (rescore model query c).score
            = BM25_WEIGHT * c.score + SEMANTIC_WEIGHT * simScore model query c
        ∧ ∀ c' ∈ candidates,
            combinedScore model query c' ≤ combinedScore model query c := by
  obtain ⟨c₀, cs, rfl⟩ : ∃ c₀ cs, candidates = c₀ :: cs := by
    cases candidates with
    | nil => exact absurd rfl hne
    | cons a l => exact ⟨a, l, rfl⟩
  have hgt : (-1 : ℚ) < combinedScore model query c₀ := by
    have h1 : (0 : ℚ) ≤ BM25_WEIGHT * c₀.score :=
      mul_nonneg (by norm_num [BM25_WEIGHT]) (hlex c₀ (List.mem_cons_self _ _))
    have h2 : SEMANTIC_WEIGHT * (-1 : ℚ) ≤ SEMANTIC_WEIGHT * simScore model query c₀ :=
      mul_le_mul_of_nonneg_left (hsim c₀ (List.mem_cons_self _ _))
        (by norm_num [SEMANTIC_WEIGHT])
    have h3 : SEMANTIC_WEIGHT * (-1 : ℚ) = -(7 / 10) := by
      norm_num [SEMANTIC_WEIGHT]
    unfold combinedScore
    rw [h3] at h2
    linarith
  rcases rerankLoop_spec model query (c₀ :: cs) none (-1) with
    ⟨_, hall⟩ | ⟨c, hmem, heq, _, hall⟩
  · exact absurd (hall c₀ (List.mem_cons_self _ _)) (not_le.mpr hgt)
  · refine ⟨c, hmem, ?_, rfl, hall⟩
    unfold rerank_with_embeddings
    rw [if_neg hne]
    exact heq

/-- Witness for C2 on a single concrete candidate. -/
theorem rerank_selects_max_witness :
    ∃ c ∈ [({ text := "t", metadata := {}, score := 2, rank := 1
              chunk_id := ChunkId.num 0
              search_type := some "bm25" } : SearchResult)],
      rerank_with_embeddings mConst "q"
          [{ text := "t", metadata := {}, score := 2, rank := 1
             chunk_id := ChunkId.num 0, search_type := some "bm25" }]
        = some (rescore mConst "q" c)
        ∧ (rescore mConst "q" c).score
            = BM25_WEIGHT * c.score + SEMANTIC_WEIGHT * simScore mConst "q" c
        ∧ ∀ c' ∈ [({ text := "t", metadata := {}, score := 2, rank := 1
                     chunk_id := ChunkId.num 0
                     search_type := some "bm25" } : SearchResult)],
            combinedScore mConst "q" c' ≤ combinedScore mConst "q" c :=
  rerank_selects_max mConst "q" _ (List.cons_ne_nil _ _)
    (by
      intro c hc
      rw [List.mem_singleton] at hc
      subst hc
      norm_num)
    (by
      intro c hc
      rw [List.mem_singleton] at hc
      subst hc
      simp only [simScore, mConst, dot]
      norm_num)

/-- C1 counterexample: adding one chunk that has a `'text'` entry but
no `'metadata'` entry makes `add_to_index` report `False` after the
vector was already added to the FAISS index and before any metadata
row was appended — the failed call mutated the store and left one more
vector than metadata rows. -/
theorem add_to_index_counterexample :
    ((add_to_index mConst EmbeddingManager.empty
        [{ text := some "a", metadata := none, chunk_id := none }]).1 = false)
      ∧ (add_to_index mConst EmbeddingManager.empty
          [{ text := some "a", metadata := none, chunk_id := none }]).2.index_vecs.length
        = 1
      ∧ (add_to_index mConst EmbeddingManager.empty
          [{ text := some "a", metadata := none, chunk_id := none }]).2.chunks_metadata.length
        = 0 :=
  ⟨rfl, rfl, rfl⟩

theorem allTexts_length :
    ∀ {chunks : List Chunk} {texts : List String},
      allTexts chunks = some texts → texts.length = chunks.length := by
  intro chunks
  induction chunks with
  | nil =>
    intro texts h
    simp [allTexts] at h
    simp [h.symm]
  | cons c rest ih =>
    intro texts h
    unfold allTexts at h
    cases hct : c.text with
    | none => rw [hct] at h; cases h
    | some t =>
      rw [hct] at h
      cases har : allTexts rest with
      | none => rw [har] at h; cases h
      | some ts =>
        rw [har] at h
        cases h
        simp [ih har]

theorem allTexts_text_ne_none :
    ∀ {chunks : List Chunk} {texts : List String},
      allTexts chunks = some texts → ∀ c ∈ chunks, c.text ≠ none := by
  intro chunks
  induction chunks with
  | nil => intro texts _ c hc; cases hc
  | cons a rest ih =>
    intro texts h c hc
    unfold allTexts at h
    cases hct : a.text with
    | none => rw [hct] at h; cases h
    | some t =>
      rw [hct] at h
      cases har : allTexts rest with
      | none => rw [har] at h; cases h
      | some ts =>
        rcases List.mem_cons.mp hc with rfl | hc'
        · rw [hct]; exact Option.some_ne_none t
        · exact ih har c hc'

theorem buildMetadata_complete :
    ∀ (chunks : List Chunk),
      (∀ c ∈ chunks, c.text ≠ none ∧ c.metadata ≠ none) →
      ∀ sid i, (buildMetadata sid chunks i).2 = true
        ∧ (buildMetadata sid chunks i).1.length = chunks.length := by
  intro chunks
  induction chunks with
  | nil => intro _ sid i; exact ⟨rfl, rfl⟩
  | cons c rest ih =>
    intro h sid i
    obtain ⟨t, hct⟩ := Option.ne_none_iff_exists'.mp (h c (List.mem_cons_self _ _)).1
    obtain ⟨m, hcm⟩ := Option.ne_none_iff_exists'.mp (h c (List.mem_cons_self _ _)).2
    have hrest := fun u hu => h u (List.mem_cons_of_mem c hu)
    have hr := ih hrest sid (i + 1)
    unfold buildMetadata
    rw [hct, hcm]
    cases hb : buildMetadata sid rest (i + 1) with
    | mk rows ok =>
      rw [hb] at hr
      have h1 : ok = true := hr.1
      have h2 : rows.length = rest.length := hr.2
      exact ⟨h1, by simp [h2]⟩

theorem create_bm25_index_keeps_counts (x : EmbeddingManager) :
    (create_bm25_index x).index_vecs = x.index_vecs
      ∧ (create_bm25_index x).chunks_metadata = x.chunks_metadata := by
  unfold create_bm25_index
  split <;> exact ⟨rfl, rfl⟩

/-- C1 amended: `add_to_index` keeps `vector_count == len(metadata)`
and is all-or-nothing on failure, provided every chunk carries a
`'metadata'` entry and the encoder's output dimension is uniform.
(The unamended claim is false: a chunk with `'text'` but without
`'metadata'` makes the call fail after the vectors were added, leaving
more vectors than metadata rows — see the counterexample.) -/
theorem add_to_index_amended (model : Model) (s : EmbeddingManager)
    (chunks : List Chunk) (D : Nat)
    (hdim : ∀ t, (model.encode t).length = D)
    (hmeta : ∀ c ∈ chunks, c.metadata ≠ none)
    (hinv : s.index_vecs.length = s.chunks_metadata.length) :
    ((add_to_index model s chunks).2.index_vecs.length
        = (add_to_index model s chunks).2.chunks_metadata.length)
      ∧ ((add_to_index model s chunks).1 = false
          → (add_to_index model s chunks).2 = s) := by
  cases hce : create_embeddings model chunks with
  | none => simp [add_to_index, hce, hinv]
  | some embeddings =>
    have hchunks_ne : chunks ≠ [] := by
      intro hch
      subst hch
      simp [create_embeddings] at hce
    obtain ⟨texts, hat, hemb⟩ :
        ∃ texts, allTexts chunks = some texts ∧ embeddings = texts.map model.encode := by
      unfold create_embeddings at hce
      rw [if_neg hchunks_ne] at hce
      cases hat : allTexts chunks with
      | none => rw [hat] at hce; cases hce
      | some ts => rw [hat] at hce; exact ⟨ts, rfl, (Option.some.inj hce).symm⟩
    have htext := allTexts_text_ne_none hat
    have hboth : ∀ c ∈ chunks, c.text ≠ none ∧ c.metadata ≠ none :=
      fun c hc => ⟨htext c hc, hmeta c hc⟩
    have hlen_emb : embeddings.length = chunks.length := by
      rw [hemb, List.length_map]
      exact allTexts_length hat
    have hdims : ∀ v ∈ embeddings, v.length = D := by
      intro v hv
      rw [hemb] at hv
      obtain ⟨t, _, rfl⟩ := List.mem_map.mp hv
      exact hdim t
    have hemb_ne : embeddings ≠ [] := by
      intro hnil
      rw [hnil] at hlen_emb
      exact hchunks_ne (List.length_eq_zero.mp hlen_emb.symm)
    obtain ⟨hok, hrows⟩ := buildMetadata_complete chunks hboth s.chunks_metadata.length 0
    cases hb : buildMetadata s.chunks_metadata.length chunks 0 with
    | mk rows ok =>
    rw [hb] at hok hrows
    have hok' : ok = true := hok
    subst hok'
    have hrows' : rows.length = chunks.length := hrows
    cases hid : s.index_dim with
    | some d₀ =>
      by_cases hmis : embeddings.any (fun v => v.length ≠ d₀) = true
      · have hred : add_to_index model s chunks = (false, s) := by
          simp only [add_to_index, hce, hid, Option.getD_some]
          rw [if_pos hmis]
        rw [hred]
        exact ⟨hinv, fun _ => rfl⟩
      · have hred : add_to_index model s chunks
            = (true, create_bm25_index
                { s with
                    index_vecs := s.index_vecs ++ embeddings
                    chunks_metadata := s.chunks_metadata ++ rows }) := by
          simp only [add_to_index, hce, hid, Option.getD_some, hb]
          rw [if_neg hmis, if_pos trivial]
        rw [hred]
        refine ⟨?_, ?_⟩
        · obtain ⟨hv, hm⟩ := create_bm25_index_keeps_counts
            { s with
                index_vecs := s.index_vecs ++ embeddings
                chunks_metadata := s.chunks_metadata ++ rows }
          simp only [hv, hm, List.length_append]
          rw [hinv, hlen_emb, hrows']
        · intro hfalse
          simp at hfalse
    | none =>
      have hd : dimOf embeddings = D := by
        cases embeddings with
        | nil => exact absurd rfl hemb_ne
        | cons v vs => exact hdims v (List.mem_cons_self _ _)
      have hmis : embeddings.any (fun v => v.length ≠ dimOf embeddings) = false := by
        rw [List.any_eq_false]
        intro v hv
        simp [hdims v hv, hd]
      have hred : add_to_index model s chunks
          = (true, create_bm25_index
              { s with
                  index_dim := some (dimOf embeddings)
                  index_vecs := s.index_vecs ++ embeddings
                  chunks_metadata := s.chunks_metadata ++ rows }) := by
        simp only [add_to_index, hce, hid, Option.getD_some, hb]
        rw [if_neg (by rw [hmis]; exact Bool.false_ne_true), if_pos trivial]
      rw [hred]
      refine ⟨?_, ?_⟩
      · obtain ⟨hv, hm⟩ := create_bm25_index_keeps_counts
          { s with
              index_dim := some (dimOf embeddings)
              index_vecs := s.index_vecs ++ embeddings
              chunks_metadata := s.chunks_metadata ++ rows }
        simp only [hv, hm, List.length_append]
        rw [hinv, hlen_emb, hrows']
      · intro hfalse
        simp at hfalse

/-- Witness for the amended C1: adding one well-formed chunk to the
empty store succeeds with matching counts. -/
theorem add_to_index_amended_witness :
    ((add_to_index mConst EmbeddingManager.empty
        [{ text := some "a", metadata := some {}, chunk_id := none }]).2.index_vecs.length
      = (add_to_index mConst EmbeddingManager.empty
          [{ text := some "a", metadata := some {}, chunk_id := none }]).2.chunks_metadata.length)
    ∧ ((add_to_index mConst EmbeddingManager.empty
          [{ text := some "a", metadata := some {}, chunk_id := none }]).1 = false
        → (add_to_index mConst EmbeddingManager.empty
            [{ text := some "a", metadata := some {}, chunk_id := none }]).2
          = EmbeddingManager.empty) :=
  add_to_index_amended mConst EmbeddingManager.empty
    [{ text := some "a", metadata := some {}, chunk_id := none }] 1
    (fun _ => rfl)
    (by
      intro c hc
      rw [List.mem_singleton] at hc
      subst hc
      exact Option.some_ne_none _)
    rfl

/-- C3 counterexample: querying the twelve-chunk index `c3Store`
filtered to document `"X"` — which the index does contain — returns a
chunk of document `"Y"`: all top-10 dense hits belong to `"Y"`, the
filter empties the candidate set, and the fallback deliberately
returns the best unfiltered result. -/
theorem process_query_filter_counterexample :
    ((process_query mConst c3Store "What methods were used" (some "X")).toOption.bind
        QueryResult.chunk).map (fun c => c.metadata.arxiv_id) = some (some "Y")
      ∧ c3Store.chunks_metadata.any (fun c => c.metadata.arxiv_id == some "X") = true := by
  with_unfolding_all decide

/-- C3 amended: the fallback dense search honours the document filter
whenever at least one of its top-`k` results belongs to the filtered
document — the returned chunk then carries the filtered `arxiv_id`.
(When no retrieved result belongs to the filtered document, the source
deliberately returns the best unfiltered result, which the
counterexample shows can belong to a different document.) -/
theorem fallback_respects_filter (model : Model) (s : EmbeddingManager)
    (query : String) (aid : String) (haid : aid ≠ "")
    (hhit : ∃ r ∈ search model s query 10, r.metadata.arxiv_id = some aid) :
    ∃ r, fallback_embedding_search model s query (some aid) = some r
      ∧ r.metadata.arxiv_id = some aid := by
  obtain ⟨r₀, hr₀, hra⟩ := hhit
  have htr : truthy (some aid) = true := by
    simp [truthy, haid]
  cases hres : search model s query 10 with
  | nil =>
    rw [hres] at hr₀
    cases hr₀
  | cons best rest =>
    rw [hres] at hr₀
    have hmem : r₀ ∈ (best :: rest).filter (fun r => r.metadata.arxiv_id == some aid) :=
      List.mem_filter.mpr ⟨hr₀, by simp [hra]⟩
    cases hfil : (best :: rest).filter (fun r => r.metadata.arxiv_id == some aid) with
    | nil =>
      rw [hfil] at hmem
      cases hmem
    | cons f fs =>
      refine ⟨f, ?_, ?_⟩
      · simp [fallback_embedding_search, htr, hres, hfil]
      · have hf : f ∈ (best :: rest).filter (fun r => r.metadata.arxiv_id == some aid) := by
          rw [hfil]
          exact List.mem_cons_self _ _
        exact eq_of_beq (List.mem_filter.mp hf).2

/-- Witness for the amended C3 on a one-chunk index whose only chunk
belongs to the filtered document. -/
theorem fallback_respects_filter_witness :
    ∃ r, fallback_embedding_search mConst c3aStore "q" (some "X") = some r
      ∧ r.metadata.arxiv_id = some "X" :=
  fallback_respects_filter mConst c3aStore "q" "X" (by decide)
    (by with_unfolding_all decide)

end ArxivAssistant
